import Mathlib

/-!
Shallow embedding of `src/rcpsp_j90_no_bound_only_time_per_instance.py`.

The script parses an RCPSP instance file, builds a CP model (interval
variables, `end_before_start` precedence constraints, cumulative `pulse`
resource constraints, minimised makespan), calls an external CP solver with
a fixed time limit, and classifies the outcome.  The whole body of
`solve_rcpsp` runs inside `try ... except Exception`, so every Python
exception is turned into the return value `(None, "error", elapsed)`.

Modelling choices:
* an input file is a list of lines, each line already tokenised into the
  integers produced by `int(...)` on its whitespace-split tokens; an
  unreadable file (where `open` raises) is `none`;
* Python list indexing (`xs[i]`, including negative indices and
  `IndexError`) is `pyGet` / `pyIdx`; Python slicing is `pySlice` /
  `pySliceFrom`; `range` is `pyRange`;
* the external CP solver (`mdl.solve`) is an oracle parameter
  `CpoModelE → Option SolveRes`; `Sound` says every solution the oracle
  reports comes from a schedule satisfying the model's constraints;
* wall-clock readings are `Int` parameters `startClock`/`endClock`;
  `solve_time` is their difference, exactly as `time.time() - start_time`.
-/

namespace RCPSP

/-- Python list indexing `xs[i]`: non-negative indices from the front,
negative indices from the back, out of range is `none` (`IndexError`). -/
def pyGet {α : Type} (xs : List α) (i : Int) : Option α :=
  if 0 ≤ i then xs[i.toNat]?
  else if 0 ≤ (xs.length : Int) + i then xs[((xs.length : Int) + i).toNat]?
  else none

/-- Python list indexing resolved to the effective 0-based position, for a
list of the given length: `some j` when `xs[i]` would be element `j`,
`none` when it would raise `IndexError`. -/
def pyIdx (len : Nat) (i : Int) : Option Nat :=
  if 0 ≤ i then (if i < (len : Int) then some i.toNat else none)
  else if 0 ≤ (len : Int) + i then some ((len : Int) + i).toNat
  else none

/-- Python slice `xs[a:b]` (step 1). -/
def pySlice {α : Type} (xs : List α) (a b : Int) : List α :=
  (xs.take (if b < 0 then ((xs.length : Int) + b).toNat else b.toNat)).drop
    (if a < 0 then ((xs.length : Int) + a).toNat else a.toNat)

/-- Python slice `xs[a:]`. -/
def pySliceFrom {α : Type} (xs : List α) (a : Int) : List α :=
  xs.drop (if a < 0 then ((xs.length : Int) + a).toNat else a.toNat)

/-- Python `range(n)` as a list of naturals (empty for `n ≤ 0`). -/
def pyRange (n : Int) : List Nat := List.range n.toNat

/-- Reading line `i` of the file: `readline` past the end of the file
returns the empty string, whose `split()` is the empty token list. -/
def lineAt (lines : List (List Int)) (i : Nat) : List Int := (lines[i]?).getD []

/-- Evaluation of a fallible step for each element in order, stopping at
the first raised exception (the semantics of a Python comprehension or
generator being consumed inside the `try` block). -/
def collectE {α β : Type} (f : α → Except String β) : List α → Except String (List β)
  | [] => Except.ok []
  | a :: as =>
    match f a with
    | Except.error e => Except.error e
    | Except.ok b =>
      match collectE f as with
      | Except.error e => Except.error e
      | Except.ok bs => Except.ok (b :: bs)

/-- Python indexing as a fallible computation. -/
def exGet {α : Type} (xs : List α) (i : Int) : Except String α :=
  match pyGet xs i with
  | some v => Except.ok v
  | none => Except.error ("IndexError")

/-- Rows of integer tokens from `NB_TASKS` successive `readline` calls on
the part of the file after the header line and the capacity line. -/
def bodyRows (body : List (List Int)) (nT : Int) : List (List Int) :=
  (pyRange nT).map (fun i => lineAt body i)

/-- Task lines of the file: `TASKS = [[int(v) for v in file.readline().split()] for i in range(NB_TASKS)]`,
read after the header line and the capacity line. -/
def taskRows (lines : List (List Int)) (nT : Int) : List (List Int) :=
  bodyRows (lines.drop 2) nT

/-- Demand vector of one task line: `TASKS[t][1:NB_RESOURCES + 1]`. -/
def demRow (row : List Int) (nR : Int) : List Int := pySlice row 1 (nR + 1)

/-- Demand vectors of all tasks: `DEMANDS`. -/
def demRows (rows : List (List Int)) (nR : Int) : List (List Int) :=
  rows.map (fun row => demRow row nR)

/-- Successor list of one task line: `TASKS[t][NB_RESOURCES + 2:]`. -/
def succRow (row : List Int) (nR : Int) : List Int := pySliceFrom row (nR + 2)

/-- Successor lists of all tasks: `SUCCESSORS`. -/
def succsRows (rows : List (List Int)) (nR : Int) : List (List Int) :=
  rows.map (fun row => succRow row nR)

/-- Outcome of one external solver run: `res.get_solve_status()` and
`res.get_objective_values()`. -/
structure SolveRes where
  solveStatus : String
  objectiveValues : List Int
deriving Repr, DecidableEq

/-- The CP model accumulated by `solve_rcpsp`: one interval variable of
fixed size per task (`durations`), one `end_before_start` constraint per
edge in `precEdges` (source task, target task, both 0-based), and one
cumulative constraint per resource in `resCons`: a list of `(task, demand)`
pulse contributions (only demands `> 0` are added) bounded by the
capacity. -/
structure CpoModelE where
  durations : List Int
  precEdges : List (Nat × Nat)
  resCons : List (List (Nat × Int) × Int)
deriving Repr, DecidableEq

/-- Pulse entries of one resource constraint:
`pulse(tasks[t], DEMANDS[t][r]) for t in range(NB_TASKS) if DEMANDS[t][r] > 0`.
Every `DEMANDS[t][r]` is evaluated (and may raise `IndexError`) before the
positivity filter is applied. -/
def buildEntries (r : Nat) : Nat → List (List Int) → Except String (List (Nat × Int))
  | _, [] => Except.ok []
  | t, drow :: rest =>
    match pyGet drow (r : Int) with
    | none => Except.error ("IndexError")
    | some d =>
      match buildEntries r (t + 1) rest with
      | Except.error e => Except.error e
      | Except.ok es => Except.ok ((t, d) :: es)

/-- Resource constraints, one per `r in range(NB_RESOURCES)`:
`sum(pulse(...) ...) <= CAPACITIES[r]` (the sum's generator is consumed
before `CAPACITIES[r]` is evaluated). -/
def buildResCons (caps : List Int) (dems : List (List Int)) :
    List Nat → Except String (List (List (Nat × Int) × Int))
  | [] => Except.ok []
  | r :: rs =>
    match buildEntries r 0 dems with
    | Except.error e => Except.error e
    | Except.ok es =>
      match exGet caps (r : Int) with
      | Except.error e => Except.error e
      | Except.ok cap =>
        match buildResCons caps dems rs with
        | Except.error e => Except.error e
        | Except.ok rest => Except.ok ((es.filter (fun p => decide (0 < p.2)), cap) :: rest)

/-- Precedence constraints:
`end_before_start(tasks[t], tasks[s - 1]) for t in range(NB_TASKS) for s in SUCCESSORS[t]`.
The target index is Python indexing `tasks[s - 1]` into the list of
`len = NB_TASKS` interval variables, so it may wrap around for
`s - 1 < 0` and raises `IndexError` only outside `[-len, len)`. -/
def buildEdgesAux (len : Nat) : Nat → List (List Int) → Except String (List (Nat × Nat))
  | _, [] => Except.ok []
  | t, srow :: rest =>
    match collectE (fun s =>
        match pyIdx len (s - 1) with
        | some j => Except.ok (t, j)
        | none => Except.error ("IndexError")) srow with
    | Except.error e => Except.error e
    | Except.ok es =>
      match buildEdgesAux len (t + 1) rest with
      | Except.error e => Except.error e
      | Except.ok rest2 => Except.ok (es ++ rest2)

/-- The model-building part of `solve_rcpsp`, in source order: header
tokens `NB_TASKS, NB_RESOURCES`, capacities, task lines, `DURATIONS`,
precedence constraints, resource constraints, and finally
`max(end_of(t) for t in tasks)`, which raises `ValueError` on an empty
task list.  Any raised exception is the `Except.error` case. -/
def buildModelAux (hdr0 hdr1 : Option Int) (caps : List Int)
    (body : List (List Int)) : Except String CpoModelE :=
  match hdr0 with
  | none => Except.error ("IndexError")
  | some nT =>
  match hdr1 with
  | none => Except.error ("IndexError")
  | some nR =>
    match collectE (fun row => exGet row 0) (bodyRows body nT) with
    | Except.error e => Except.error e
    | Except.ok durs =>
      match buildEdgesAux (pyRange nT).length 0 (succsRows (bodyRows body nT) nR) with
      | Except.error e => Except.error e
      | Except.ok edges =>
        match buildResCons caps (demRows (bodyRows body nT) nR) (pyRange nR) with
        | Except.error e => Except.error e
        | Except.ok cons =>
          if (pyRange nT).length = 0 then Except.error ("ValueError")
          else Except.ok { durations := durs, precEdges := edges, resCons := cons }

def buildModel (lines : List (List Int)) : Except String CpoModelE :=
  buildModelAux (pyGet (lineAt lines 0) 0) (pyGet (lineAt lines 0) 1)
    (lineAt lines 1) (lines.drop 2)

/-- Reading plus model building: `none` input stands for an unreadable
file (`open` raised inside the `try` block). -/
def modelOf (input : Option (List (List Int))) : Except String CpoModelE :=
  match input with
  | none => Except.error ("IOError")
  | some lines => buildModel lines

/-- Observable result of one `solve_rcpsp` call: the returned triple
`(makespan, status, solve_time)` plus whether the
`"Ignoring bound value"` diagnostic note was printed for the optional
third header token. -/
structure RunOutput where
  makespan : Option Int
  status : String
  solveTime : Int
  boundNote : Bool
deriving Repr, DecidableEq

/-- Whether the `"Ignoring bound value"` diagnostic note is printed: the
first line was read and has more than two tokens. -/
def noteOf (input : Option (List (List Int))) : Bool :=
  match input with
  | none => false
  | some lines => decide (2 < (lineAt lines 0).length)

/-- Embedding of `solve_rcpsp`: build the model, run the solver oracle,
classify.  `Optimal` solver status maps to `"optimal"`, any other status
of a found solution to `"feasible"`, no solution to `"unknown"`, and any
raised exception to `"error"` with makespan `None`. -/
def solveRcpsp (oracle : CpoModelE → Option SolveRes) (startClock endClock : Int)
    (input : Option (List (List Int))) : RunOutput :=
  match modelOf input with
  | Except.error _ =>
    { makespan := none, status := "error", solveTime := endClock - startClock,
      boundNote := noteOf input }
  | Except.ok m =>
    match oracle m with
    | none =>
      { makespan := none, status := "unknown", solveTime := endClock - startClock,
        boundNote := noteOf input }
    | some r =>
      { makespan := r.objectiveValues.head?,
        status := if r.solveStatus = "Optimal" then "optimal" else "feasible",
        solveTime := endClock - startClock, boundNote := noteOf input }

/-- Solver oracle that never returns a solution (a run that proves nothing
within the budget). -/
def oracleNone : CpoModelE → Option SolveRes := fun _ => none

/-- Duration of task `t` in the model (size of its interval variable). -/
def durAt (m : CpoModelE) (t : Nat) : Int := (m.durations[t]?).getD 0

/-- Whether the interval of task `t` covers instant `τ` under start-time
assignment `sched`: a `pulse` contributes on `[start, start + size)`. -/
def activeAt (m : CpoModelE) (sched : Nat → Int) (t : Nat) (τ : Int) : Bool :=
  decide (sched t ≤ τ) && decide (τ < sched t + durAt m t)

/-- Accumulated pulse height of one resource constraint at instant `τ`. -/
def usage (m : CpoModelE) (sched : Nat → Int) (entries : List (Nat × Int)) (τ : Int) : Int :=
  ((entries.filter (fun p => activeAt m sched p.1 τ)).map (fun p => p.2)).sum

/-- A start-time assignment satisfies the model: every `end_before_start`
constraint holds and every cumulative constraint holds at every instant. -/
def Satisfies (m : CpoModelE) (sched : Nat → Int) : Prop :=
  (∀ e ∈ m.precEdges, sched e.1 + durAt m e.1 ≤ sched e.2) ∧
  (∀ c ∈ m.resCons, ∀ τ : Int, usage m sched c.1 τ ≤ c.2)

/-- Soundness of a solver oracle: a reported solution always comes from a
start-time assignment satisfying every constraint of the model it was
given. -/
def Sound (oracle : CpoModelE → Option SolveRes) : Prop :=
  ∀ m r, oracle m = some r → ∃ sched : Nat → Int, Satisfies m sched

/-! Spec-side schedule validity, following the specification's words:
"every precedence edge is respected (finish(predecessor) ≤
start(successor)) and every resource's usage never exceeds capacity at any
integer time instant".  Successor ids are 1-based task indices, so
successor id `s` names the task at 0-based position `s - 1`. -/

/-- Demand of task `t` for resource `r` as the specification reads the
instance (0 where absent). -/
def specDem (dems : List (List Int)) (t r : Nat) : Int :=
  (((dems[t]?).getD [])[r]?).getD 0

/-- Whether task `t` is active at instant `τ` per the specification:
`start(t) ≤ τ < start(t) + duration(t)`. -/
def specActive (durs : List Int) (sched : Nat → Int) (t : Nat) (τ : Int) : Bool :=
  decide (sched t ≤ τ) && decide (τ < sched t + (durs[t]?).getD 0)

/-- Summed demands for resource `r` of all tasks active at instant `τ`. -/
def specUsage (durs : List Int) (dems : List (List Int)) (sched : Nat → Int)
    (r : Nat) (τ : Int) : Int :=
  (((List.range durs.length).filter (fun t => specActive durs sched t τ)).map
    (fun t => specDem dems t r)).sum

/-- Spec-side validity of a schedule: every precedence edge `t → s` of the
instance has `finish(t) ≤ start(s)` (with `s` a 1-based successor id), and
for every resource the summed demands of active tasks never exceed its
capacity. -/
def SpecScheduleOk (durs : List Int) (dems succs : List (List Int))
    (caps : List Int) (nRes : Nat) (sched : Nat → Int) : Prop :=
  (∀ t srow s, succs[t]? = some srow → s ∈ srow →
    sched t + (durs[t]?).getD 0 ≤ sched (s.toNat - 1)) ∧
  (∀ r : Nat, r < nRes → ∀ τ : Int,
    specUsage durs dems sched r τ ≤ (caps[r]?).getD 0)

/-! Embedding of the per-instance batch loop of `main`: each file is
processed inside `try ... except Exception`; on success the row
`[file name, makespan or "N/A", status, formatted time]` is written, on
any raised exception the row `[file name, "Error", "error", "0.00"]` is
written instead, and the loop continues with the next file either way. -/

/-- Row written by the `except` branch of the batch loop. -/
def errorRow (name : String) : List String := [name, "Error", "error", "0.00"]

/-- Formatting of the makespan column: `str(makespan)` or `"N/A"`. -/
def fmtMakespan : Option Int → String
  | some n => toString n
  | none => "N/A"

/-- The batch loop over the instance files.  Processing one file is a
fallible computation yielding `(makespan, status, formatted solve time)`;
a raised exception is its `Except.error` case. -/
def mainLoop (proc : String → Except String (Option Int × String × String)) :
    List String → List (List String)
  | [] => []
  | f :: fs =>
    (match proc f with
     | Except.ok out => [f, fmtMakespan out.1, out.2.1, out.2.2]
     | Except.error _ => errorRow f) :: mainLoop proc fs

/-! Basic lemmas about the Python-semantics helpers. -/

theorem pyGet_ofNat {α : Type} (xs : List α) (k : Nat) : pyGet xs (k : Int) = xs[k]? := by
  simp [pyGet]

theorem pyIdx_eq_none_iff (len : Nat) (i : Int) :
    pyIdx len i = none ↔ ((len : Int) ≤ i ∨ i < -(len : Int)) := by
  unfold pyIdx
  split
  · split <;> simp <;> omega
  · split <;> simp <;> omega

theorem pyIdx_neg_one (len : Nat) (h : 0 < len) : pyIdx len (-1) = some (len - 1) := by
  unfold pyIdx
  have h1 : ¬ (0 ≤ (-1 : Int)) := by omega
  have h2 : 0 ≤ (len : Int) + (-1) := by omega
  simp only [if_neg h1, if_pos h2]
  congr 1
  omega

theorem pyIdx_oneBased (len : Nat) (s : Int) (h1 : 1 ≤ s) (h2 : s ≤ (len : Int)) :
    pyIdx len (s - 1) = some (s.toNat - 1) := by
  unfold pyIdx
  have ha : 0 ≤ s - 1 := by omega
  have hb : s - 1 < (len : Int) := by omega
  simp only [if_pos ha, if_pos hb]
  congr 1
  omega

/-! Lemmas about `collectE`. -/

theorem collectE_ok_length {α β : Type} (f : α → Except String β) :
    ∀ (l : List α) (bs : List β), collectE f l = Except.ok bs → bs.length = l.length := by
  intro l
  induction l with
  | nil =>
    intro bs h
    simp only [collectE] at h
    injection h with h2
    subst h2
    rfl
  | cons a as ih =>
    intro bs h
    simp only [collectE] at h
    cases hfa : f a with
    | error e => rw [hfa] at h; cases h
    | ok b =>
      rw [hfa] at h
      cases hrest : collectE f as with
      | error e => rw [hrest] at h; cases h
      | ok bs2 =>
        rw [hrest] at h
        injection h with h2
        subst h2
        simp [ih bs2 hrest]

theorem collectE_ok_get {α β : Type} (f : α → Except String β) :
    ∀ (l : List α) (bs : List β), collectE f l = Except.ok bs →
      ∀ (i : Nat) (a : α), l[i]? = some a →
        ∃ b, bs[i]? = some b ∧ f a = Except.ok b := by
  intro l
  induction l with
  | nil => intro bs h i a ha; simp at ha
  | cons x xs ih =>
    intro bs h i a ha
    simp only [collectE] at h
    cases hfa : f x with
    | error e => rw [hfa] at h; cases h
    | ok b =>
      rw [hfa] at h
      cases hrest : collectE f xs with
      | error e => rw [hrest] at h; cases h
      | ok bs2 =>
        rw [hrest] at h
        injection h with h2
        subst h2
        cases i with
        | zero =>
          simp only [List.getElem?_cons_zero, Option.some.injEq] at ha
          subst ha
          exact ⟨b, by simp, hfa⟩
        | succ n =>
          simp only [List.getElem?_cons_succ] at ha ⊢
          exact ih bs2 hrest n a ha

theorem collectE_ok_elem {α β : Type} (f : α → Except String β) (l : List α)
    (bs : List β) (h : collectE f l = Except.ok bs) (a : α) (ha : a ∈ l) :
    ∃ b, f a = Except.ok b ∧ b ∈ bs := by
  obtain ⟨i, hi⟩ := List.mem_iff_getElem?.mp ha
  obtain ⟨b, hb, hfa⟩ := collectE_ok_get f l bs h i a hi
  exact ⟨b, hfa, List.getElem?_mem hb⟩

theorem collectE_ok_src {α β : Type} (f : α → Except String β) :
    ∀ (l : List α) (bs : List β), collectE f l = Except.ok bs →
      ∀ b ∈ bs, ∃ a ∈ l, f a = Except.ok b := by
  intro l
  induction l with
  | nil =>
    intro bs h b hb
    simp only [collectE] at h
    injection h with h2
    subst h2
    simp at hb
  | cons x xs ih =>
    intro bs h b hb
    simp only [collectE] at h
    cases hfa : f x with
    | error e => rw [hfa] at h; cases h
    | ok b0 =>
      rw [hfa] at h
      cases hrest : collectE f xs with
      | error e => rw [hrest] at h; cases h
      | ok bs2 =>
        rw [hrest] at h
        injection h with h2
        subst h2
        rcases List.mem_cons.mp hb with hb0 | hb2
        · subst hb0
          exact ⟨x, List.mem_cons_self x xs, hfa⟩
        · obtain ⟨a, ha, hfa2⟩ := ih bs2 hrest b hb2
          exact ⟨a, List.mem_cons_of_mem x ha, hfa2⟩

/-! Lemmas about `buildEntries`. -/

theorem buildEntries_ok_length (r : Nat) :
    ∀ (rows : List (List Int)) (k : Nat) (es : List (Nat × Int)),
      buildEntries r k rows = Except.ok es → es.length = rows.length := by
  intro rows
  induction rows with
  | nil =>
    intro k es h
    simp only [buildEntries] at h
    injection h with h2
    subst h2
    rfl
  | cons drow rest ih =>
    intro k es h
    simp only [buildEntries] at h
    cases hg : pyGet drow (r : Int) with
    | none => rw [hg] at h; cases h
    | some d =>
      rw [hg] at h
      cases hrest : buildEntries r (k + 1) rest with
      | error e => rw [hrest] at h; cases h
      | ok es2 =>
        rw [hrest] at h
        injection h with h2
        subst h2
        simp [ih (k + 1) es2 hrest]

theorem buildEntries_ok_get (r : Nat) :
    ∀ (rows : List (List Int)) (k : Nat) (es : List (Nat × Int)),
      buildEntries r k rows = Except.ok es →
      ∀ (i : Nat) (drow : List Int), rows[i]? = some drow →
        ∃ d, pyGet drow (r : Int) = some d ∧ es[i]? = some (k + i, d) := by
  intro rows
  induction rows with
  | nil => intro k es h i drow hi; simp at hi
  | cons drow0 rest ih =>
    intro k es h i drow hi
    simp only [buildEntries] at h
    cases hg : pyGet drow0 (r : Int) with
    | none => rw [hg] at h; cases h
    | some d =>
      rw [hg] at h
      cases hrest : buildEntries r (k + 1) rest with
      | error e => rw [hrest] at h; cases h
      | ok es2 =>
        rw [hrest] at h
        injection h with h2
        subst h2
        cases i with
        | zero =>
          simp only [List.getElem?_cons_zero, Option.some.injEq] at hi
          subst hi
          exact ⟨d, hg, by simp⟩
        | succ n =>
          simp only [List.getElem?_cons_succ] at hi ⊢
          obtain ⟨d2, hd2, he2⟩ := ih (k + 1) es2 hrest n drow hi
          refine ⟨d2, hd2, ?_⟩
          rw [he2]
          congr 2
          omega

/-! Lemmas about `buildEdgesAux`. -/

theorem buildEdgesAux_ok_forall (len : Nat) :
    ∀ (rows : List (List Int)) (k : Nat) (es : List (Nat × Nat)),
      buildEdgesAux len k rows = Except.ok es →
      ∀ (i : Nat) (srow : List Int), rows[i]? = some srow →
        ∀ s ∈ srow, ∃ j, pyIdx len (s - 1) = some j := by
  intro rows
  induction rows with
  | nil => intro k es h i srow hi; simp at hi
  | cons srow0 rest ih =>
    intro k es h i srow hi s hs
    simp only [buildEdgesAux] at h
    cases hc : collectE (fun s =>
        match pyIdx len (s - 1) with
        | some j => Except.ok (k, j)
        | none => Except.error ("IndexError")) srow0 with
    | error e => rw [hc] at h; cases h
    | ok es1 =>
      rw [hc] at h
      cases hrest : buildEdgesAux len (k + 1) rest with
      | error e => rw [hrest] at h; cases h
      | ok es2 =>
        rw [hrest] at h
        cases i with
        | zero =>
          simp only [List.getElem?_cons_zero, Option.some.injEq] at hi
          subst hi
          obtain ⟨b, hb, _⟩ := collectE_ok_elem _ _ es1 hc s hs
          revert hb
          cases hj : pyIdx len (s - 1) with
          | none => intro hb; cases hb
          | some j => intro hb; exact ⟨j, rfl⟩
        | succ n =>
          simp only [List.getElem?_cons_succ] at hi
          exact ih (k + 1) es2 hrest n srow hi s hs

theorem buildEdgesAux_ok_mem (len : Nat) :
    ∀ (rows : List (List Int)) (k : Nat) (es : List (Nat × Nat)),
      buildEdgesAux len k rows = Except.ok es →
      ∀ (i : Nat) (srow : List Int) (s : Int) (j : Nat), rows[i]? = some srow →
        s ∈ srow → pyIdx len (s - 1) = some j → (k + i, j) ∈ es := by
  intro rows
  induction rows with
  | nil => intro k es h i srow s j hi; simp at hi
  | cons srow0 rest ih =>
    intro k es h i srow s j hi hs hj
    simp only [buildEdgesAux] at h
    cases hc : collectE (fun s =>
        match pyIdx len (s - 1) with
        | some j => Except.ok (k, j)
        | none => Except.error ("IndexError")) srow0 with
    | error e => rw [hc] at h; cases h
    | ok es1 =>
      rw [hc] at h
      cases hrest : buildEdgesAux len (k + 1) rest with
      | error e => rw [hrest] at h; cases h
      | ok es2 =>
        rw [hrest] at h
        injection h with h2
        subst h2
        cases i with
        | zero =>
          simp only [List.getElem?_cons_zero, Option.some.injEq] at hi
          subst hi
          obtain ⟨b, hfb, hb⟩ := collectE_ok_elem _ _ es1 hc s hs
          rw [hj] at hfb
          injection hfb with h3
          subst h3
          simpa using List.mem_append_left es2 hb
        | succ n =>
          simp only [List.getElem?_cons_succ] at hi
          have := ih (k + 1) es2 hrest n srow s j hi hs hj
          have h4 : k + 1 + n = k + (n + 1) := by omega
          rw [h4] at this
          exact List.mem_append_right es1 this

theorem buildEdgesAux_ok_src (len : Nat) :
    ∀ (rows : List (List Int)) (k : Nat) (es : List (Nat × Nat)),
      buildEdgesAux len k rows = Except.ok es →
      ∀ e ∈ es, ∃ (i : Nat) (srow : List Int) (s : Int),
        rows[i]? = some srow ∧ s ∈ srow ∧ e.1 = k + i ∧ pyIdx len (s - 1) = some e.2 := by
  intro rows
  induction rows with
  | nil =>
    intro k es h e he
    simp only [buildEdgesAux] at h
    injection h with h2
    subst h2
    simp at he
  | cons srow0 rest ih =>
    intro k es h e he
    simp only [buildEdgesAux] at h
    cases hc : collectE (fun s =>
        match pyIdx len (s - 1) with
        | some j => Except.ok (k, j)
        | none => Except.error ("IndexError")) srow0 with
    | error e2 => rw [hc] at h; cases h
    | ok es1 =>
      rw [hc] at h
      cases hrest : buildEdgesAux len (k + 1) rest with
      | error e2 => rw [hrest] at h; cases h
      | ok es2 =>
        rw [hrest] at h
        injection h with h2
        subst h2
        rcases List.mem_append.mp he with he1 | he2
        · obtain ⟨s, hs, hfs⟩ := collectE_ok_src _ srow0 es1 hc e he1
          revert hfs
          cases hj : pyIdx len (s - 1) with
          | none => intro hfs; cases hfs
          | some j =>
            intro hfs
            injection hfs with h3
            subst h3
            exact ⟨0, srow0, s, by simp, hs, by simp, by simpa using hj⟩
        · obtain ⟨i, srow, s, hi, hs, he1, hj⟩ := ih (k + 1) es2 hrest e he2
          refine ⟨i + 1, srow, s, by simpa using hi, hs, by omega, hj⟩

/-! Lemmas about `buildResCons` and `buildModel`. -/

theorem buildResCons_ok_get (caps : List Int) (dems : List (List Int)) :
    ∀ (rs : List Nat) (cs : List (List (Nat × Int) × Int)),
      buildResCons caps dems rs = Except.ok cs →
      ∀ (i r : Nat), rs[i]? = some r →
        ∃ es cap, buildEntries r 0 dems = Except.ok es ∧
          pyGet caps (r : Int) = some cap ∧
          cs[i]? = some (es.filter (fun p => decide (0 < p.2)), cap) := by
  intro rs
  induction rs with
  | nil => intro cs h i r hi; simp at hi
  | cons r0 rest ih =>
    intro cs h i r hi
    simp only [buildResCons] at h
    cases he : buildEntries r0 0 dems with
    | error e => rw [he] at h; cases h
    | ok es =>
      rw [he] at h
      cases hcap : exGet caps (r0 : Int) with
      | error e => rw [hcap] at h; cases h
      | ok cap =>
        rw [hcap] at h
        cases hrest : buildResCons caps dems rest with
        | error e => rw [hrest] at h; cases h
        | ok cs2 =>
          rw [hrest] at h
          injection h with h2
          subst h2
          cases i with
          | zero =>
            simp only [List.getElem?_cons_zero, Option.some.injEq] at hi
            subst hi
            refine ⟨es, cap, he, ?_, by simp⟩
            unfold exGet at hcap
            revert hcap
            cases hg : pyGet caps (r0 : Int) with
            | none => intro hcap; cases hcap
            | some v =>
              intro hcap
              injection hcap with h3
              rw [h3]
          | succ n =>
            simp only [List.getElem?_cons_succ] at hi ⊢
            exact ih cs2 hrest n r hi

theorem buildModel_ok_inv {lines : List (List Int)} {m : CpoModelE}
    (h : buildModel lines = Except.ok m) :
    ∃ nT nR,
      pyGet (lineAt lines 0) 0 = some nT ∧ pyGet (lineAt lines 0) 1 = some nR ∧
      collectE (fun row => exGet row 0) (taskRows lines nT) = Except.ok m.durations ∧
      buildEdgesAux (pyRange nT).length 0 (succsRows (taskRows lines nT) nR) =
        Except.ok m.precEdges ∧
      buildResCons (lineAt lines 1) (demRows (taskRows lines nT) nR) (pyRange nR) =
        Except.ok m.resCons ∧
      (pyRange nT).length ≠ 0 := by
  unfold buildModel buildModelAux at h
  split at h
  · cases h
  · rename_i nT h0
    split at h
    · cases h
    · rename_i nR h1
      split at h
      · cases h
      · rename_i durs hd
        split at h
        · cases h
        · rename_i edges hedge
          split at h
          · cases h
          · rename_i cons hcons
            split at h
            · cases h
            · rename_i hz
              injection h with h2
              subst h2
              exact ⟨nT, nR, h0, h1, hd, hedge, hcons, hz⟩

/-! Branch equations for `solveRcpsp`. -/

theorem solveRcpsp_eq_error (oracle : CpoModelE → Option SolveRes) (cs ce : Int)
    (input : Option (List (List Int))) (e : String)
    (hm : modelOf input = Except.error e) :
    solveRcpsp oracle cs ce input =
      { makespan := none, status := "error", solveTime := ce - cs,
        boundNote := noteOf input } := by
  unfold solveRcpsp
  simp only [hm]

theorem solveRcpsp_eq_unknown (oracle : CpoModelE → Option SolveRes) (cs ce : Int)
    (input : Option (List (List Int))) (m : CpoModelE)
    (hm : modelOf input = Except.ok m) (ho : oracle m = none) :
    solveRcpsp oracle cs ce input =
      { makespan := none, status := "unknown", solveTime := ce - cs,
        boundNote := noteOf input } := by
  unfold solveRcpsp
  simp only [hm, ho]

theorem solveRcpsp_eq_found (oracle : CpoModelE → Option SolveRes) (cs ce : Int)
    (input : Option (List (List Int))) (m : CpoModelE) (r : SolveRes)
    (hm : modelOf input = Except.ok m) (ho : oracle m = some r) :
    solveRcpsp oracle cs ce input =
      { makespan := r.objectiveValues.head?,
        status := if r.solveStatus = "Optimal" then "optimal" else "feasible",
        solveTime := ce - cs, boundNote := noteOf input } := by
  unfold solveRcpsp
  simp only [hm, ho]

/-! Claim theorems. -/

/-- C5: for every input, the status returned by `solve_rcpsp` is exactly
one of `optimal`, `feasible`, `unknown`, `error`: `optimal` exactly when
the solver reports solve status `Optimal`, `feasible` when a solution is
found with any other solver status, `unknown` when no solution is found,
and `error` when an exception occurs. -/
theorem solve_status_classification (oracle : CpoModelE → Option SolveRes)
    (cs ce : Int) (input : Option (List (List Int))) :
    ((solveRcpsp oracle cs ce input).status = "optimal" ∨
      (solveRcpsp oracle cs ce input).status = "feasible" ∨
      (solveRcpsp oracle cs ce input).status = "unknown" ∨
      (solveRcpsp oracle cs ce input).status = "error") ∧
    ((solveRcpsp oracle cs ce input).status = "optimal" ↔
      ∃ m r, modelOf input = Except.ok m ∧ oracle m = some r ∧
        r.solveStatus = "Optimal") ∧
    ((solveRcpsp oracle cs ce input).status = "feasible" ↔
      ∃ m r, modelOf input = Except.ok m ∧ oracle m = some r ∧
        r.solveStatus ≠ "Optimal") ∧
    ((solveRcpsp oracle cs ce input).status = "unknown" ↔
      ∃ m, modelOf input = Except.ok m ∧ oracle m = none) ∧
    ((solveRcpsp oracle cs ce input).status = "error" ↔
      ∃ e, modelOf input = Except.error e) := by
  cases hm : modelOf input with
  | error e =>
    have hst : (solveRcpsp oracle cs ce input).status = "error" := by
      rw [solveRcpsp_eq_error oracle cs ce input e hm]
    rw [hst]
    refine ⟨Or.inr (Or.inr (Or.inr rfl)), ?_, ?_, ?_, ?_⟩
    · constructor
      · intro hc; exact absurd hc (by decide)
      · rintro ⟨m2, r2, hm2, -, -⟩; cases hm2
    · constructor
      · intro hc; exact absurd hc (by decide)
      · rintro ⟨m2, r2, hm2, -, -⟩; cases hm2
    · constructor
      · intro hc; exact absurd hc (by decide)
      · rintro ⟨m2, hm2, -⟩; cases hm2
    · exact ⟨fun _ => ⟨e, rfl⟩, fun _ => rfl⟩
  | ok m =>
    cases ho : oracle m with
    | none =>
      have hst : (solveRcpsp oracle cs ce input).status = "unknown" := by
        rw [solveRcpsp_eq_unknown oracle cs ce input m hm ho]
      rw [hst]
      refine ⟨Or.inr (Or.inr (Or.inl rfl)), ?_, ?_, ?_, ?_⟩
      · constructor
        · intro hc; exact absurd hc (by decide)
        · rintro ⟨m2, r2, hm2, ho2, -⟩
          injection hm2 with h2; subst h2
          rw [ho] at ho2; cases ho2
      · constructor
        · intro hc; exact absurd hc (by decide)
        · rintro ⟨m2, r2, hm2, ho2, -⟩
          injection hm2 with h2; subst h2
          rw [ho] at ho2; cases ho2
      · exact ⟨fun _ => ⟨m, rfl, ho⟩, fun _ => rfl⟩
      · constructor
        · intro hc; exact absurd hc (by decide)
        · rintro ⟨e2, he⟩; cases he
    | some r =>
      by_cases hs : r.solveStatus = "Optimal"
      · have hst : (solveRcpsp oracle cs ce input).status = "optimal" := by
          rw [solveRcpsp_eq_found oracle cs ce input m r hm ho]
          exact if_pos hs
        rw [hst]
        refine ⟨Or.inl rfl, ?_, ?_, ?_, ?_⟩
        · exact ⟨fun _ => ⟨m, r, rfl, ho, hs⟩, fun _ => rfl⟩
        · constructor
          · intro hc; exact absurd hc (by decide)
          · rintro ⟨m2, r2, hm2, ho2, hs2⟩
            injection hm2 with h2; subst h2
            rw [ho] at ho2; injection ho2 with h3; subst h3
            exact absurd hs hs2
        · constructor
          · intro hc; exact absurd hc (by decide)
          · rintro ⟨m2, hm2, ho2⟩
            injection hm2 with h2; subst h2
            rw [ho] at ho2; cases ho2
        · constructor
          · intro hc; exact absurd hc (by decide)
          · rintro ⟨e2, he⟩; cases he
      · have hst : (solveRcpsp oracle cs ce input).status = "feasible" := by
          rw [solveRcpsp_eq_found oracle cs ce input m r hm ho]
          exact if_neg hs
        rw [hst]
        refine ⟨Or.inr (Or.inl rfl), ?_, ?_, ?_, ?_⟩
        · constructor
          · intro hc; exact absurd hc (by decide)
          · rintro ⟨m2, r2, hm2, ho2, hs2⟩
            injection hm2 with h2; subst h2
            rw [ho] at ho2; injection ho2 with h3; subst h3
            exact absurd hs2 hs
        · exact ⟨fun _ => ⟨m, r, rfl, ho, hs⟩, fun _ => rfl⟩
        · constructor
          · intro hc; exact absurd hc (by decide)
          · rintro ⟨m2, hm2, ho2⟩
            injection hm2 with h2; subst h2
            rw [ho] at ho2; cases ho2
        · constructor
          · intro hc; exact absurd hc (by decide)
          · rintro ⟨e2, he⟩; cases he

/-- C8: `solve_rcpsp` never propagates an exception (the whole body runs
inside `try ... except Exception`, embedded here as a total function): for
every input, readable or not, it returns a triple whose makespan is an
integer or `None`, whose status is one of the four status strings, and
whose solve time (the difference of the two wall-clock readings) is
non-negative whenever the clock did not run backwards. -/
theorem solve_never_raises (oracle : CpoModelE → Option SolveRes)
    (cs ce : Int) (input : Option (List (List Int))) (h : cs ≤ ce) :
    (solveRcpsp oracle cs ce input).solveTime = ce - cs ∧
    0 ≤ (solveRcpsp oracle cs ce input).solveTime ∧
    ((solveRcpsp oracle cs ce input).status = "optimal" ∨
      (solveRcpsp oracle cs ce input).status = "feasible" ∨
      (solveRcpsp oracle cs ce input).status = "unknown" ∨
      (solveRcpsp oracle cs ce input).status = "error") ∧
    ((solveRcpsp oracle cs ce input).makespan = none ∨
      ∃ n : Int, (solveRcpsp oracle cs ce input).makespan = some n) := by
  cases hm : modelOf input with
  | error e =>
    rw [solveRcpsp_eq_error oracle cs ce input e hm]
    exact ⟨rfl, show (0 : Int) ≤ ce - cs by omega,
      Or.inr (Or.inr (Or.inr rfl)), Or.inl rfl⟩
  | ok m =>
    cases ho : oracle m with
    | none =>
      rw [solveRcpsp_eq_unknown oracle cs ce input m hm ho]
      exact ⟨rfl, show (0 : Int) ≤ ce - cs by omega,
        Or.inr (Or.inr (Or.inl rfl)), Or.inl rfl⟩
    | some r =>
      rw [solveRcpsp_eq_found oracle cs ce input m r hm ho]
      refine ⟨rfl, show (0 : Int) ≤ ce - cs by omega, ?_, ?_⟩
      · by_cases hs : r.solveStatus = "Optimal"
        · exact Or.inl (if_pos hs)
        · exact Or.inr (Or.inl (if_neg hs))
      · cases hv : r.objectiveValues.head? with
        | none => exact Or.inl rfl
        | some n => exact Or.inr ⟨n, rfl⟩

/-- Witness for C8 at a concrete input: a malformed (empty) file, the
never-answering oracle, and clock readings 0 and 3. -/
theorem solve_never_raises_witness :
    (0 : Int) ≤ 3 ∧
    ((solveRcpsp oracleNone 0 3 (some [])).solveTime = 3 - 0 ∧
      0 ≤ (solveRcpsp oracleNone 0 3 (some [])).solveTime ∧
      ((solveRcpsp oracleNone 0 3 (some [])).status = "optimal" ∨
        (solveRcpsp oracleNone 0 3 (some [])).status = "feasible" ∨
        (solveRcpsp oracleNone 0 3 (some [])).status = "unknown" ∨
        (solveRcpsp oracleNone 0 3 (some [])).status = "error") ∧
      ((solveRcpsp oracleNone 0 3 (some [])).makespan = none ∨
        ∃ n : Int, (solveRcpsp oracleNone 0 3 (some [])).makespan = some n)) :=
  ⟨by decide, solve_never_raises oracleNone 0 3 (some []) (by decide)⟩

/-! Helper lemmas about slices on natural bounds, and about `List.set`. -/

theorem demRow_ofNat (row : List Int) (R : Nat) :
    demRow row (R : Int) = (row.take (R + 1)).drop 1 := by
  unfold demRow pySlice
  rw [if_neg (by omega : ¬ ((R : Int) + 1 < 0)), if_neg (by omega : ¬ ((1 : Int) < 0))]
  have h3 : ((R : Int) + 1).toNat = R + 1 := by omega
  rw [h3]
  rfl

theorem succRow_ofNat (row : List Int) (R : Nat) :
    succRow row (R : Int) = row.drop (R + 2) := by
  unfold succRow pySliceFrom
  rw [if_neg (by omega : ¬ ((R : Int) + 2 < 0))]
  have h3 : ((R : Int) + 2).toNat = R + 2 := by omega
  rw [h3]

theorem take_set_of_le {α : Type} (l : List α) (i : Nat) (v : α) (n : Nat) (h : n ≤ i) :
    (l.set i v).take n = l.take n := by
  apply List.ext_getElem?
  intro j
  by_cases hj : j < n
  · rw [List.getElem?_take_of_lt hj, List.getElem?_take_of_lt hj,
      List.getElem?_set_ne (by omega)]
  · have h1 : (l.take n)[j]? = none := by
      simp [List.getElem?_take]
      omega
    have h2 : ((l.set i v).take n)[j]? = none := by
      simp [List.getElem?_take]
      omega
    rw [h1, h2]

theorem drop_set_of_lt {α : Type} (l : List α) (i : Nat) (v : α) (n : Nat) (h : i < n) :
    (l.set i v).drop n = l.drop n := by
  apply List.ext_getElem?
  intro j
  rw [List.getElem?_drop, List.getElem?_drop, List.getElem?_set_ne (by omega)]

theorem pyGet_zero {α : Type} (xs : List α) : pyGet xs 0 = xs[0]? := by
  unfold pyGet
  rw [if_pos (by omega : (0 : Int) ≤ 0)]
  rfl

theorem pyGet_one {α : Type} (xs : List α) : pyGet xs 1 = xs[1]? := by
  unfold pyGet
  rw [if_pos (by omega : (0 : Int) ≤ 1)]
  rfl

/-- C6: for every task line of a well-formed instance with `R` resources,
parsing extracts the first token as the duration, tokens 2 through `R + 1`
(1-based) as the demand vector of length exactly `R`, and the tokens from
position `R + 3` (1-based) onward as the successor ids; a successor id `s`
with `1 ≤ s ≤ N` addresses the interval variable of task `s`, at 0-based
position `s - 1`. -/
theorem task_line_parsing (row : List Int) (R : Nat) (h : R + 2 ≤ row.length) :
    pyGet row 0 = row[0]? ∧
    demRow row (R : Int) = (row.drop 1).take R ∧
    (demRow row (R : Int)).length = R ∧
    succRow row (R : Int) = row.drop (R + 2) ∧
    (∀ (len : Nat) (s : Int), 1 ≤ s → s ≤ (len : Int) →
      pyIdx len (s - 1) = some (s.toNat - 1)) := by
  refine ⟨pyGet_zero row, ?_, ?_, succRow_ofNat row R,
    fun len s h1 h2 => pyIdx_oneBased len s h1 h2⟩
  · rw [demRow_ofNat]
    apply List.ext_getElem?
    intro j
    rw [List.getElem?_drop]
    by_cases hj : j < R
    · rw [List.getElem?_take_of_lt (by omega), List.getElem?_take_of_lt hj,
        List.getElem?_drop]
    · have h1 : ((row.take (R + 1)).drop 1)[j]? = none := by
        rw [List.getElem?_drop]
        simp [List.getElem?_take]
        omega
      have h2 : ((row.drop 1).take R)[j]? = none := by
        simp [List.getElem?_take]
        omega
      rw [← List.getElem?_drop, h1, h2]
  · rw [demRow_ofNat]
    simp only [List.length_drop, List.length_take]
    omega

/-- Witness for C6 on the concrete task line `3 1 1 2` (duration 3, one
demand, one successor) with `R = 1`. -/
theorem task_line_parsing_witness :
    (1 + 2 ≤ ([3, 1, 1, 2] : List Int).length) ∧
    (pyGet ([3, 1, 1, 2] : List Int) 0 = ([3, 1, 1, 2] : List Int)[0]? ∧
      demRow ([3, 1, 1, 2] : List Int) ((1 : Nat) : Int) =
        (([3, 1, 1, 2] : List Int).drop 1).take 1 ∧
      (demRow ([3, 1, 1, 2] : List Int) ((1 : Nat) : Int)).length = 1 ∧
      succRow ([3, 1, 1, 2] : List Int) ((1 : Nat) : Int) =
        ([3, 1, 1, 2] : List Int).drop (1 + 2) ∧
      (∀ (len : Nat) (s : Int), 1 ≤ s → s ≤ (len : Int) →
        pyIdx len (s - 1) = some (s.toNat - 1))) :=
  ⟨by decide, task_line_parsing [3, 1, 1, 2] 1 (by decide)⟩

/-- C10: the `num_successors` token (0-based index `R + 1` of a task
line) is parsed but never used or validated: overwriting it changes
neither the duration, the demand vector, nor the successor list, and the
successors taken are all tokens from index `R + 2` on, regardless of the
declared count. -/
theorem num_successors_token_unused (row : List Int) (v : Int) (R : Nat) :
    pyGet (row.set (R + 1) v) 0 = pyGet row 0 ∧
    demRow (row.set (R + 1) v) (R : Int) = demRow row (R : Int) ∧
    succRow (row.set (R + 1) v) (R : Int) = succRow row (R : Int) ∧
    succRow row (R : Int) = row.drop (R + 2) := by
  refine ⟨?_, ?_, ?_, succRow_ofNat row R⟩
  · rw [pyGet_zero, pyGet_zero, List.getElem?_set_ne (by omega)]
  · rw [demRow_ofNat, demRow_ofNat, take_set_of_le row (R + 1) v (R + 1) (le_refl (R + 1))]
  · rw [succRow_ofNat, succRow_ofNat, drop_set_of_lt row (R + 1) v (R + 2) (by omega)]

/-! Lemmas for the bound-token noninterference claim. -/

theorem buildModel_congr_of_take_two (l0a l0b : List Int) (rest : List (List Int))
    (h : l0a.take 2 = l0b.take 2) :
    buildModel (l0a :: rest) = buildModel (l0b :: rest) := by
  have h0 : pyGet l0a 0 = pyGet l0b 0 := by
    rw [pyGet_zero, pyGet_zero, ← List.getElem?_take_of_lt (by omega : 0 < 2), h,
      List.getElem?_take_of_lt (by omega : 0 < 2)]
  have h1 : pyGet l0a 1 = pyGet l0b 1 := by
    rw [pyGet_one, pyGet_one, ← List.getElem?_take_of_lt (by omega : 1 < 2), h,
      List.getElem?_take_of_lt (by omega : 1 < 2)]
  have ha : lineAt (l0a :: rest) 0 = l0a := by simp [lineAt]
  have hb : lineAt (l0b :: rest) 0 = l0b := by simp [lineAt]
  have hc : lineAt (l0a :: rest) 1 = lineAt rest 0 := by simp [lineAt]
  have hd : lineAt (l0b :: rest) 1 = lineAt rest 0 := by simp [lineAt]
  show buildModelAux (pyGet (lineAt (l0a :: rest) 0) 0) (pyGet (lineAt (l0a :: rest) 0) 1)
      (lineAt (l0a :: rest) 1) ((l0a :: rest).drop 2) = _
  rw [ha, h0, h1, hc]
  show _ = buildModelAux (pyGet (lineAt (l0b :: rest) 0) 0) (pyGet (lineAt (l0b :: rest) 0) 1)
      (lineAt (l0b :: rest) 1) ((l0b :: rest).drop 2)
  rw [hb, hd]
  rfl

theorem solveRcpsp_boundNote (oracle : CpoModelE → Option SolveRes) (cs ce : Int)
    (input : Option (List (List Int))) :
    (solveRcpsp oracle cs ce input).boundNote = noteOf input := by
  cases hm : modelOf input with
  | error e => rw [solveRcpsp_eq_error oracle cs ce input e hm]
  | ok m =>
    cases ho : oracle m with
    | none => rw [solveRcpsp_eq_unknown oracle cs ce input m hm ho]
    | some r => rw [solveRcpsp_eq_found oracle cs ce input m r hm ho]

/-- C2: two input files that differ only in the presence or value of the
optional third (or later) token of the first line build the same model and
get the same makespan and status from `solve_rcpsp`; the bound token is
parsed but never used as a constraint, and the diagnostic note is emitted
exactly when the first line has more than two tokens. -/
theorem bound_token_noninterference (oracle : CpoModelE → Option SolveRes)
    (cs ce : Int) (l0a l0b : List Int) (rest : List (List Int))
    (h : l0a.take 2 = l0b.take 2) :
    buildModel (l0a :: rest) = buildModel (l0b :: rest) ∧
    (solveRcpsp oracle cs ce (some (l0a :: rest))).makespan =
      (solveRcpsp oracle cs ce (some (l0b :: rest))).makespan ∧
    (solveRcpsp oracle cs ce (some (l0a :: rest))).status =
      (solveRcpsp oracle cs ce (some (l0b :: rest))).status ∧
    (solveRcpsp oracle cs ce (some (l0a :: rest))).boundNote =
      decide (2 < l0a.length) ∧
    (solveRcpsp oracle cs ce (some (l0b :: rest))).boundNote =
      decide (2 < l0b.length) := by
  have hbm := buildModel_congr_of_take_two l0a l0b rest h
  have hma : modelOf (some (l0a :: rest)) = buildModel (l0a :: rest) := rfl
  have hmb : modelOf (some (l0b :: rest)) = buildModel (l0b :: rest) := rfl
  refine ⟨hbm, ?_, ?_, ?_, ?_⟩
  · cases hA : buildModel (l0a :: rest) with
    | error e =>
      rw [solveRcpsp_eq_error oracle cs ce _ e (hma.trans hA),
        solveRcpsp_eq_error oracle cs ce _ e (hmb.trans (hbm ▸ hA))]
    | ok m =>
      cases ho : oracle m with
      | none =>
        rw [solveRcpsp_eq_unknown oracle cs ce _ m (hma.trans hA) ho,
          solveRcpsp_eq_unknown oracle cs ce _ m (hmb.trans (hbm ▸ hA)) ho]
      | some r =>
        rw [solveRcpsp_eq_found oracle cs ce _ m r (hma.trans hA) ho,
          solveRcpsp_eq_found oracle cs ce _ m r (hmb.trans (hbm ▸ hA)) ho]
  · cases hA : buildModel (l0a :: rest) with
    | error e =>
      rw [solveRcpsp_eq_error oracle cs ce _ e (hma.trans hA),
        solveRcpsp_eq_error oracle cs ce _ e (hmb.trans (hbm ▸ hA))]
    | ok m =>
      cases ho : oracle m with
      | none =>
        rw [solveRcpsp_eq_unknown oracle cs ce _ m (hma.trans hA) ho,
          solveRcpsp_eq_unknown oracle cs ce _ m (hmb.trans (hbm ▸ hA)) ho]
      | some r =>
        rw [solveRcpsp_eq_found oracle cs ce _ m r (hma.trans hA) ho,
          solveRcpsp_eq_found oracle cs ce _ m r (hmb.trans (hbm ▸ hA)) ho]
  · rw [solveRcpsp_boundNote]
    simp [noteOf, lineAt]
  · rw [solveRcpsp_boundNote]
    simp [noteOf, lineAt]

/-- Witness for C2: the files `2 1 / 1 / 3 1 1 2 / 2 1 0` and
`2 1 99 / 1 / 3 1 1 2 / 2 1 0` differ only in the extra bound token 99. -/
theorem bound_token_noninterference_witness :
    ([2, 1] : List Int).take 2 = ([2, 1, 99] : List Int).take 2 ∧
    (buildModel ([2, 1] :: [[1], [3, 1, 1, 2], [2, 1, 0]]) =
        buildModel ([2, 1, 99] :: [[1], [3, 1, 1, 2], [2, 1, 0]]) ∧
      (solveRcpsp oracleNone 0 1 (some ([2, 1] :: [[1], [3, 1, 1, 2], [2, 1, 0]]))).makespan =
        (solveRcpsp oracleNone 0 1 (some ([2, 1, 99] :: [[1], [3, 1, 1, 2], [2, 1, 0]]))).makespan ∧
      (solveRcpsp oracleNone 0 1 (some ([2, 1] :: [[1], [3, 1, 1, 2], [2, 1, 0]]))).status =
        (solveRcpsp oracleNone 0 1 (some ([2, 1, 99] :: [[1], [3, 1, 1, 2], [2, 1, 0]]))).status ∧
      (solveRcpsp oracleNone 0 1 (some ([2, 1] :: [[1], [3, 1, 1, 2], [2, 1, 0]]))).boundNote =
        decide (2 < ([2, 1] : List Int).length) ∧
      (solveRcpsp oracleNone 0 1 (some ([2, 1, 99] :: [[1], [3, 1, 1, 2], [2, 1, 0]]))).boundNote =
        decide (2 < ([2, 1, 99] : List Int).length)) :=
  ⟨by decide, bound_token_noninterference oracleNone 0 1 [2, 1] [2, 1, 99]
    [[1], [3, 1, 1, 2], [2, 1, 0]] (by decide)⟩

/-- C7: in the batch loop, a failure while processing one instance never
aborts processing of subsequent instances: the result has one row per
input file, the row of a file whose processing raised is the error row
`[name, "Error", "error", "0.00"]`, and the row of every other file is its
ordinary result row. -/
theorem batch_loop_isolation (proc : String → Except String (Option Int × String × String))
    (files : List String) :
    (mainLoop proc files).length = files.length ∧
    (∀ (i : Nat) (f : String), files[i]? = some f →
      (mainLoop proc files)[i]? =
        some (match proc f with
              | Except.ok out => [f, fmtMakespan out.1, out.2.1, out.2.2]
              | Except.error _ => errorRow f)) := by
  induction files with
  | nil =>
    refine ⟨rfl, ?_⟩
    intro i f hf
    simp at hf
  | cons g gs ih =>
    have hm : mainLoop proc (g :: gs) =
        (match proc g with
         | Except.ok out => [g, fmtMakespan out.1, out.2.1, out.2.2]
         | Except.error _ => errorRow g) :: mainLoop proc gs := rfl
    constructor
    · rw [hm]
      simp [ih.1]
    · intro i f hf
      cases i with
      | zero =>
        simp only [List.getElem?_cons_zero, Option.some.injEq] at hf
        subst hf
        rw [hm, List.getElem?_cons_zero]
      | succ n =>
        simp only [List.getElem?_cons_succ] at hf
        rw [hm, List.getElem?_cons_succ]
        exact ih.2 n f hf

/-- Witness for C7: two files where processing of the first raises and the
second succeeds; the first gets the error row, the second its result row. -/
theorem batch_loop_isolation_witness :
    ((["bad.data", "good.data"] : List String)[0]? = some "bad.data") ∧
    ((["bad.data", "good.data"] : List String)[1]? = some "good.data") ∧
    (mainLoop (fun f => if f = "bad.data" then Except.error ("boom")
        else Except.ok (some 42, "optimal", "1.00")) ["bad.data", "good.data"]).length = 2 ∧
    (mainLoop (fun f => if f = "bad.data" then Except.error ("boom")
        else Except.ok (some 42, "optimal", "1.00")) ["bad.data", "good.data"])[0]? =
      some (errorRow "bad.data") ∧
    (mainLoop (fun f => if f = "bad.data" then Except.error ("boom")
        else Except.ok (some 42, "optimal", "1.00")) ["bad.data", "good.data"])[1]? =
      some ["good.data", "42", "optimal", "1.00"] := by
  refine ⟨rfl, rfl, ?_, ?_, ?_⟩
  · exact (batch_loop_isolation (fun f => if f = "bad.data" then Except.error ("boom")
      else Except.ok (some 42, "optimal", "1.00")) ["bad.data", "good.data"]).1
  · have := (batch_loop_isolation (fun f => if f = "bad.data" then Except.error ("boom")
      else Except.ok (some 42, "optimal", "1.00")) ["bad.data", "good.data"]).2 0
      "bad.data" rfl
    simpa using this
  · have := (batch_loop_isolation (fun f => if f = "bad.data" then Except.error ("boom")
      else Except.ok (some 42, "optimal", "1.00")) ["bad.data", "good.data"]).2 1
      "good.data" rfl
    simpa using this

/-- C9: a successor id of 0 in a task's successor list does not produce
status `error`: the edge is built as `tasks[s - 1]` with `s - 1 = -1`, and
Python negative indexing silently makes it point at the last task
(0-based index `NB_TASKS - 1`) instead of being rejected as out of
range. -/
theorem successor_zero_silently_accepted (lines : List (List Int)) (m : CpoModelE)
    (nT nR : Int) (t : Nat) (srow : List Int)
    (oracle : CpoModelE → Option SolveRes) (cs ce : Int)
    (hbm : buildModel lines = Except.ok m)
    (h0 : pyGet (lineAt lines 0) 0 = some nT)
    (h1 : pyGet (lineAt lines 0) 1 = some nR)
    (hrow : (succsRows (taskRows lines nT) nR)[t]? = some srow)
    (hs : (0 : Int) ∈ srow) :
    (t, (pyRange nT).length - 1) ∈ m.precEdges ∧
    (solveRcpsp oracle cs ce (some lines)).status ≠ "error" := by
  obtain ⟨nT2, nR2, h02, h12, hd, hedge, hcons, hz⟩ := buildModel_ok_inv hbm
  rw [h0] at h02
  injection h02 with hT2
  subst hT2
  rw [h1] at h12
  injection h12 with hR2
  subst hR2
  constructor
  · have hlen : 0 < (pyRange nT).length := Nat.pos_of_ne_zero hz
    have hidx : pyIdx (pyRange nT).length ((0 : Int) - 1) =
        some ((pyRange nT).length - 1) := by
      rw [show ((0 : Int) - 1) = -1 by omega]
      exact pyIdx_neg_one (pyRange nT).length hlen
    have := buildEdgesAux_ok_mem (pyRange nT).length
      (succsRows (taskRows lines nT) nR) 0 m.precEdges hedge t srow 0
      ((pyRange nT).length - 1) hrow hs hidx
    simpa using this
  · have hmo : modelOf (some lines) = Except.ok m := hbm
    cases ho : oracle m with
    | none =>
      rw [solveRcpsp_eq_unknown oracle cs ce (some lines) m hmo ho]
      intro hc
      exact absurd (show ("unknown" : String) = "error" from hc) (by decide)
    | some r =>
      rw [solveRcpsp_eq_found oracle cs ce (some lines) m r hmo ho]
      by_cases hst : r.solveStatus = "Optimal"
      · rw [if_pos hst]
        intro hc
        exact absurd (show ("optimal" : String) = "error" from hc) (by decide)
      · rw [if_neg hst]
        intro hc
        exact absurd (show ("feasible" : String) = "error" from hc) (by decide)

/-- Witness for C9 on the instance `2 1 / 1 / 1 1 1 0 / 1 1 0`: task 1
lists successor id 0; the model builds, with the edge from task 1 landing
on task 2 (last task), and the run does not report an error. -/
theorem successor_zero_witness :
    (buildModel [[2, 1], [1], [1, 1, 1, 0], [1, 1, 0]] = Except.ok
        { durations := [1, 1], precEdges := [(0, 1)],
          resCons := [([(0, 1), (1, 1)], 1)] } ∧
      pyGet (lineAt [[2, 1], [1], [1, 1, 1, 0], [1, 1, 0]] 0) 0 = some 2 ∧
      pyGet (lineAt [[2, 1], [1], [1, 1, 1, 0], [1, 1, 0]] 0) 1 = some 1 ∧
      (succsRows (taskRows [[2, 1], [1], [1, 1, 1, 0], [1, 1, 0]] 2) 1)[0]? =
        some [0] ∧
      (0 : Int) ∈ ([0] : List Int)) ∧
    ((0, (pyRange 2).length - 1) ∈
        (CpoModelE.mk [1, 1] [(0, 1)] [([(0, 1), (1, 1)], 1)]).precEdges ∧
      (solveRcpsp oracleNone 0 1
        (some [[2, 1], [1], [1, 1, 1, 0], [1, 1, 0]])).status ≠ "error") :=
  ⟨⟨rfl, rfl, rfl, rfl, by decide⟩,
    successor_zero_silently_accepted [[2, 1], [1], [1, 1, 1, 0], [1, 1, 0]]
      (CpoModelE.mk [1, 1] [(0, 1)] [([(0, 1), (1, 1)], 1)]) 2 1 0 [0]
      oracleNone 0 1 rfl rfl rfl rfl (by decide)⟩

/-- C4 counterexample: the instance `2 1 / 1 / 1 1 1 0 / 1 1 0` contains
the successor id 0, which is out of range for 1-based task ids 1..2, yet
`solve_rcpsp` (here run with a solver that finds nothing) returns status
`unknown`, not `error`: the claim that every out-of-range successor id
yields status `error` is false. -/
theorem out_of_range_successor_claim_false :
    ((succsRows (taskRows [[2, 1], [1], [1, 1, 1, 0], [1, 1, 0]] 2) 1)[0]? =
        some [0] ∧
      (0 : Int) ∈ ([0] : List Int) ∧
      ¬ (1 ≤ (0 : Int) ∧ (0 : Int) ≤ 2)) ∧
    (solveRcpsp oracleNone 0 1
        (some [[2, 1], [1], [1, 1, 1, 0], [1, 1, 0]])).status = "unknown" ∧
    (solveRcpsp oracleNone 0 1
        (some [[2, 1], [1], [1, 1, 1, 0], [1, 1, 0]])).status ≠ "error" :=
  ⟨⟨rfl, by decide, by decide⟩, rfl, by decide⟩

/-- C4 amended: a successor id `s` raises `IndexError` — and hence yields
status `error` with no makespan — exactly when `s - 1` falls outside
Python's index range for the task list, i.e. `s > NB_TASKS` or
`s ≤ -NB_TASKS`; ids `0, -1, ..., -NB_TASKS + 1` are instead accepted
silently through negative indexing.  This theorem proves the error half:
any instance whose successor list contains such an id produces status
`error` and makespan `None`. -/
theorem out_of_python_range_successor_errors (lines : List (List Int))
    (nT nR : Int) (t : Nat) (srow : List Int) (s : Int)
    (oracle : CpoModelE → Option SolveRes) (cs ce : Int)
    (h0 : pyGet (lineAt lines 0) 0 = some nT)
    (h1 : pyGet (lineAt lines 0) 1 = some nR)
    (hrow : (succsRows (taskRows lines nT) nR)[t]? = some srow)
    (hs : s ∈ srow)
    (hbad : ((pyRange nT).length : Int) ≤ s - 1 ∨
      s - 1 < -((pyRange nT).length : Int)) :
    (solveRcpsp oracle cs ce (some lines)).makespan = none ∧
    (solveRcpsp oracle cs ce (some lines)).status = "error" := by
  have herr : ∀ m : CpoModelE, buildModel lines ≠ Except.ok m := by
    intro m hbm
    obtain ⟨nT2, nR2, h02, h12, hd, hedge, hcons, hz⟩ := buildModel_ok_inv hbm
    rw [h0] at h02
    injection h02 with hT2
    subst hT2
    rw [h1] at h12
    injection h12 with hR2
    subst hR2
    obtain ⟨j, hj⟩ := buildEdgesAux_ok_forall (pyRange nT).length
      (succsRows (taskRows lines nT) nR) 0 m.precEdges hedge t srow hrow s hs
    have hnone : pyIdx (pyRange nT).length (s - 1) = none :=
      (pyIdx_eq_none_iff (pyRange nT).length (s - 1)).mpr hbad
    rw [hnone] at hj
    cases hj
  cases hbm : buildModel lines with
  | ok m => exact absurd hbm (herr m)
  | error e =>
    have hmo : modelOf (some lines) = Except.error e := hbm
    rw [solveRcpsp_eq_error oracle cs ce (some lines) e hmo]
    exact ⟨rfl, rfl⟩

/-- Witness for the amended C4 on the instance `2 1 / 1 / 1 1 1 3 / 1 1 0`:
successor id 3 exceeds `NB_TASKS = 2`, and the run reports status `error`
with no makespan. -/
theorem out_of_python_range_successor_errors_witness :
    (pyGet (lineAt [[2, 1], [1], [1, 1, 1, 3], [1, 1, 0]] 0) 0 = some 2 ∧
      pyGet (lineAt [[2, 1], [1], [1, 1, 1, 3], [1, 1, 0]] 0) 1 = some 1 ∧
      (succsRows (taskRows [[2, 1], [1], [1, 1, 1, 3], [1, 1, 0]] 2) 1)[0]? =
        some [3] ∧
      (3 : Int) ∈ ([3] : List Int) ∧
      (((pyRange 2).length : Int) ≤ 3 - 1 ∨
        (3 : Int) - 1 < -((pyRange 2).length : Int))) ∧
    ((solveRcpsp oracleNone 0 1
        (some [[2, 1], [1], [1, 1, 1, 3], [1, 1, 0]])).makespan = none ∧
      (solveRcpsp oracleNone 0 1
        (some [[2, 1], [1], [1, 1, 1, 3], [1, 1, 0]])).status = "error") :=
  ⟨⟨rfl, rfl, rfl, by decide, by decide⟩,
    out_of_python_range_successor_errors [[2, 1], [1], [1, 1, 1, 3], [1, 1, 0]]
      2 1 0 [3] 3 oracleNone 0 1 rfl rfl rfl (by decide) (by decide)⟩

/-- Overloaded pulse entry: if some resource constraint of the model
contains a pulse of height `d` above the capacity, from a task with
positive duration, then no start-time assignment satisfies the model. -/
theorem no_schedule_of_overloaded_entry (m : CpoModelE) (c : List (Nat × Int) × Int)
    (t : Nat) (d : Int) (hc : c ∈ m.resCons) (hd : (t, d) ∈ c.1)
    (hpos : ∀ p ∈ c.1, (0 : Int) < p.2) (hlt : c.2 < d) (hdur : 0 < durAt m t) :
    ∀ sched : Nat → Int, ¬ Satisfies m sched := by
  intro sched hsat
  have husage := hsat.2 c hc (sched t)
  have hact : activeAt m sched t (sched t) = true := by
    unfold activeAt
    simp only [Bool.and_eq_true, decide_eq_true_eq]
    omega
  have hmem2 : (t, d) ∈ c.1.filter (fun p => activeAt m sched p.1 (sched t)) :=
    List.mem_filter.mpr ⟨hd, hact⟩
  have hmemmap : d ∈ (c.1.filter (fun p => activeAt m sched p.1 (sched t))).map
      (fun p => p.2) := List.mem_map.mpr ⟨(t, d), hmem2, rfl⟩
  have hnn : ∀ x ∈ (c.1.filter (fun p => activeAt m sched p.1 (sched t))).map
      (fun p => p.2), (0 : Int) ≤ x := by
    intro x hx
    obtain ⟨p, hp, hpx⟩ := List.mem_map.mp hx
    have := hpos p (List.mem_filter.mp hp).1
    omega
  have hle : d ≤ usage m sched c.1 (sched t) := by
    unfold usage
    exact List.single_le_sum hnn d hmemmap
  omega

/-- C1 counterexample: the instance `1 1 / 2 / 3 3 0` has a task whose
demand 3 exceeds the capacity 2, the no-answer solver run is sound, yet
`solve_rcpsp` returns status `unknown` with no makespan — not `error` as
the claim states: there is no pre-search demand check. -/
theorem demand_exceeds_capacity_not_error :
    Sound oracleNone ∧
    (pyGet (demRow [3, 3, 0] 1) 0 = some 3 ∧
      pyGet (lineAt [[1, 1], [2], [3, 3, 0]] 1) 0 = some 2 ∧
      (2 : Int) < 3) ∧
    (solveRcpsp oracleNone 0 1 (some [[1, 1], [2], [3, 3, 0]])).status =
      "unknown" ∧
    (solveRcpsp oracleNone 0 1 (some [[1, 1], [2], [3, 3, 0]])).status ≠
      "error" ∧
    (solveRcpsp oracleNone 0 1 (some [[1, 1], [2], [3, 3, 0]])).makespan =
      none := by
  refine ⟨?_, ⟨rfl, rfl, by decide⟩, rfl, by decide, rfl⟩
  intro m r h
  cases h

/-- C1 amended: `solve_rcpsp` performs no pre-search demand-vs-capacity
check.  A task whose demand for some resource exceeds that resource's
(non-negative) capacity, with positive duration, makes the CP model
infeasible, so under any sound solver run the call returns status
`unknown` with makespan `None` — not status `error`. -/
theorem demand_exceeds_capacity_yields_unknown (lines : List (List Int))
    (m : CpoModelE) (nT nR : Int) (t r : Nat) (row : List Int)
    (d cap dur : Int) (oracle : CpoModelE → Option SolveRes) (cs ce : Int)
    (hsound : Sound oracle)
    (hbm : buildModel lines = Except.ok m)
    (h0 : pyGet (lineAt lines 0) 0 = some nT)
    (h1 : pyGet (lineAt lines 0) 1 = some nR)
    (hrow : (taskRows lines nT)[t]? = some row)
    (hr : r < nR.toNat)
    (hdem : pyGet (demRow row nR) (r : Int) = some d)
    (hcap : pyGet (lineAt lines 1) (r : Int) = some cap)
    (hcap0 : 0 ≤ cap) (hlt : cap < d)
    (hdur : pyGet row 0 = some dur) (hdurpos : 0 < dur) :
    (solveRcpsp oracle cs ce (some lines)).makespan = none ∧
    (solveRcpsp oracle cs ce (some lines)).status = "unknown" := by
  obtain ⟨nT2, nR2, h02, h12, hdall, hedge, hcons, hz⟩ := buildModel_ok_inv hbm
  rw [h0] at h02
  injection h02 with e1
  subst e1
  rw [h1] at h12
  injection h12 with e2
  subst e2
  obtain ⟨b, hb, hfb⟩ := collectE_ok_get (fun row => exGet row 0)
    (taskRows lines nT) m.durations hdall t row hrow
  unfold exGet at hfb
  rw [hdur] at hfb
  injection hfb with h3
  subst h3
  have hdurat : durAt m t = dur := by
    unfold durAt
    rw [hb]
    rfl
  have hrr : (pyRange nR)[r]? = some r := by
    simp [pyRange, List.getElem?_range hr]
  obtain ⟨es, cap2, hes, hcap2, hcs⟩ := buildResCons_ok_get (lineAt lines 1)
    (demRows (taskRows lines nT) nR) (pyRange nR) m.resCons hcons r r hrr
  rw [hcap] at hcap2
  injection hcap2 with h4
  subst h4
  have hdemrow : (demRows (taskRows lines nT) nR)[t]? = some (demRow row nR) := by
    unfold demRows
    rw [List.getElem?_map, hrow]
    rfl
  obtain ⟨d2, hd2, he2⟩ := buildEntries_ok_get r
    (demRows (taskRows lines nT) nR) 0 es hes t (demRow row nR) hdemrow
  rw [hdem] at hd2
  injection hd2 with h5
  subst h5
  have hmemes : (t, d) ∈ es := by
    rw [Nat.zero_add] at he2
    exact List.getElem?_mem he2
  have hmemfil : (t, d) ∈ es.filter (fun p => decide (0 < p.2)) := by
    refine List.mem_filter.mpr ⟨hmemes, ?_⟩
    simp only [decide_eq_true_eq]
    omega
  have hcmem : (es.filter (fun p => decide (0 < p.2)), cap) ∈ m.resCons :=
    List.getElem?_mem hcs
  have hpos : ∀ p ∈ es.filter (fun p => decide (0 < p.2)), (0 : Int) < p.2 := by
    intro p hp
    have := (List.mem_filter.mp hp).2
    simpa using this
  have hnosched := no_schedule_of_overloaded_entry m
    (es.filter (fun p => decide (0 < p.2)), cap) t d hcmem hmemfil hpos hlt
    (by rw [hdurat]; exact hdurpos)
  cases ho : oracle m with
  | some r2 =>
    obtain ⟨sched, hsat⟩ := hsound m r2 ho
    exact absurd hsat (hnosched sched)
  | none =>
    rw [solveRcpsp_eq_unknown oracle cs ce (some lines) m hbm ho]
    exact ⟨rfl, rfl⟩

/-- Witness for the amended C1 on the instance `1 1 / 2 / 3 3 0`: one
task of duration 3 demanding 3 units of the single capacity-2 resource;
with the sound no-answer solver the result is `unknown`, makespan
`None`. -/
theorem demand_exceeds_capacity_yields_unknown_witness :
    (Sound oracleNone ∧
      buildModel [[1, 1], [2], [3, 3, 0]] = Except.ok
        { durations := [3], precEdges := [], resCons := [([(0, 3)], 2)] } ∧
      (taskRows [[1, 1], [2], [3, 3, 0]] 1)[0]? = some [3, 3, 0] ∧
      (0 : Nat) < (1 : Int).toNat ∧
      pyGet (demRow [3, 3, 0] 1) 0 = some 3 ∧
      pyGet (lineAt [[1, 1], [2], [3, 3, 0]] 1) 0 = some 2 ∧
      (0 : Int) ≤ 2 ∧ (2 : Int) < 3 ∧
      pyGet ([3, 3, 0] : List Int) 0 = some 3 ∧ (0 : Int) < 3) ∧
    ((solveRcpsp oracleNone 0 1 (some [[1, 1], [2], [3, 3, 0]])).makespan =
        none ∧
      (solveRcpsp oracleNone 0 1 (some [[1, 1], [2], [3, 3, 0]])).status =
        "unknown") :=
  ⟨⟨fun _ _ h => (nomatch h), rfl, rfl, (by decide), rfl, rfl, (by decide),
      (by decide), rfl, (by decide)⟩,
    demand_exceeds_capacity_yields_unknown [[1, 1], [2], [3, 3, 0]]
      { durations := [3], precEdges := [], resCons := [([(0, 3)], 2)] }
      1 1 0 0 [3, 3, 0] 3 2 3 oracleNone 0 1 (fun _ _ h => nomatch h) rfl rfl
      rfl rfl (by decide) rfl rfl (by decide) (by decide) rfl (by decide)⟩

/-! Lemmas for the model-to-specification refinement claim. -/

theorem buildResCons_ok_length (caps : List Int) (dems : List (List Int)) :
    ∀ (rs : List Nat) (cs : List (List (Nat × Int) × Int)),
      buildResCons caps dems rs = Except.ok cs → cs.length = rs.length := by
  intro rs
  induction rs with
  | nil =>
    intro cs h
    simp only [buildResCons] at h
    injection h with h2
    subst h2
    rfl
  | cons r0 rest ih =>
    intro cs h
    simp only [buildResCons] at h
    cases he : buildEntries r0 0 dems with
    | error e => rw [he] at h; cases h
    | ok es =>
      rw [he] at h
      cases hcap : exGet caps (r0 : Int) with
      | error e => rw [hcap] at h; cases h
      | ok cap =>
        rw [hcap] at h
        cases hrest : buildResCons caps dems rest with
        | error e => rw [hrest] at h; cases h
        | ok cs2 =>
          rw [hrest] at h
          injection h with h2
          subst h2
          simp [ih cs2 hrest]

theorem buildEntries_ok_eq (r : Nat) (dems : List (List Int))
    (es : List (Nat × Int)) (h : buildEntries r 0 dems = Except.ok es) :
    es = (List.range dems.length).map
      (fun i => (i, (pyGet ((dems[i]?).getD []) (r : Int)).getD 0)) := by
  apply List.ext_getElem?
  intro i
  by_cases hi : i < dems.length
  · obtain ⟨drow, hdrow⟩ : ∃ drow, dems[i]? = some drow :=
      ⟨dems[i], List.getElem?_eq_getElem hi⟩
    obtain ⟨d, hd, he⟩ := buildEntries_ok_get r dems 0 es h i drow hdrow
    rw [Nat.zero_add] at he
    rw [he, List.getElem?_map]
    simp [List.getElem?_range hi, hdrow, hd]
  · have h1 : es[i]? = none := by
      apply List.getElem?_eq_none
      rw [buildEntries_ok_length r dems 0 es h]
      omega
    have h2 : ((List.range dems.length).map
        (fun i => (i, (pyGet ((dems[i]?).getD []) (r : Int)).getD 0)))[i]? = none := by
      apply List.getElem?_eq_none
      simp
      omega
    rw [h1, h2]

theorem sum_filter_drop_second (f : Nat → Int) (a b : Nat → Bool) :
    ∀ l : List Nat, (∀ x ∈ l, a x = true → b x = false → f x = 0) →
      ((l.filter (fun x => a x && b x)).map f).sum = ((l.filter a).map f).sum := by
  intro l
  induction l with
  | nil => intro h; rfl
  | cons x xs ih =>
    intro h
    have hx := h x (List.mem_cons_self x xs)
    have htail := fun y hy => h y (List.mem_cons_of_mem x hy)
    cases ha : a x with
    | false =>
      simp only [List.filter_cons, ha, Bool.false_and, Bool.false_eq_true,
        if_neg, ite_false]
      exact ih htail
    | true =>
      cases hb : b x with
      | true =>
        simp only [List.filter_cons, ha, hb, Bool.and_self, if_pos, ite_true,
          List.map_cons, List.sum_cons]
        rw [ih htail]
      | false =>
        have hfx : f x = 0 := hx ha hb
        simp only [List.filter_cons, ha, hb, Bool.true_and, Bool.false_eq_true,
          ite_false, ite_true, List.map_cons, List.sum_cons]
        rw [ih htail, hfx]
        omega

theorem activeAt_eq_specActive (m : CpoModelE) (sched : Nat → Int) (t : Nat)
    (τ : Int) : activeAt m sched t τ = specActive m.durations sched t τ := rfl

theorem usage_eq_specUsage (m : CpoModelE) (sched : Nat → Int) (r : Nat)
    (dems : List (List Int)) (es : List (Nat × Int)) (τ : Int)
    (hlen : dems.length = m.durations.length)
    (hes : buildEntries r 0 dems = Except.ok es)
    (hnn : ∀ (i : Nat) (drow : List Int), dems[i]? = some drow → ∀ x ∈ drow, (0 : Int) ≤ x) :
    usage m sched (es.filter (fun p => decide (0 < p.2))) τ =
      specUsage m.durations dems sched r τ := by
  have hdvnn : ∀ x, x < dems.length →
      (0 : Int) ≤ ((((dems[x]?).getD [])[r]?).getD 0) := by
    intro x hx
    obtain ⟨drow, hdrow⟩ : ∃ drow, dems[x]? = some drow :=
      ⟨dems[x], List.getElem?_eq_getElem hx⟩
    rw [hdrow]
    simp only [Option.getD_some]
    cases hg : drow[r]? with
    | none => simp
    | some dd =>
      simp only [Option.getD_some]
      exact hnn x drow hdrow dd (List.getElem?_mem hg)
  have hes2 := buildEntries_ok_eq r dems es hes
  subst hes2
  unfold usage specUsage specDem
  rw [List.filter_filter, List.filter_map, List.map_map]
  simp only [Function.comp, activeAt_eq_specActive, pyGet_ofNat]
  rw [hlen] at hdvnn ⊢
  apply sum_filter_drop_second
    (fun t => ((((dems[t]?).getD [])[r]?).getD 0))
    (fun t => specActive m.durations sched t τ)
    (fun t => decide (0 < ((((dems[t]?).getD [])[r]?).getD 0)))
  intro x hx hact hpos
  simp only [decide_eq_false_iff_not, not_lt] at hpos
  have := hdvnn x (List.mem_range.mp hx)
  omega

/-- C3: for every valid instance (successor ids within `1..NB_TASKS`,
non-negative demands), the model built by `solve_rcpsp` contains exactly
the `end_before_start` constraints of the successor edges and one
cumulative constraint per resource, and every start-time assignment
satisfying the model — hence any schedule underlying a reported
solution of a sound solver — is valid in the specification's sense:
`finish(t) ≤ start(s)` for every precedence edge, and for every resource
the summed demands of the tasks active at any integer instant never
exceed its capacity. -/
theorem model_schedules_meet_spec (lines : List (List Int)) (m : CpoModelE)
    (nT nR : Int)
    (hbm : buildModel lines = Except.ok m)
    (h0 : pyGet (lineAt lines 0) 0 = some nT)
    (h1 : pyGet (lineAt lines 0) 1 = some nR)
    (hsucc : ∀ (t : Nat) (srow : List Int) (s : Int),
      (succsRows (taskRows lines nT) nR)[t]? = some srow → s ∈ srow →
      1 ≤ s ∧ s ≤ nT)
    (hdems : ∀ (t : Nat) (row : List Int), (taskRows lines nT)[t]? = some row →
      ∀ x ∈ demRow row nR, (0 : Int) ≤ x) :
    (∀ p : Nat × Nat, p ∈ m.precEdges ↔
      ∃ (srow : List Int) (s : Int),
        (succsRows (taskRows lines nT) nR)[p.1]? = some srow ∧ s ∈ srow ∧
        pyIdx (pyRange nT).length (s - 1) = some p.2) ∧
    m.resCons.length = nR.toNat ∧
    (∀ sched : Nat → Int, Satisfies m sched →
      SpecScheduleOk m.durations (demRows (taskRows lines nT) nR)
        (succsRows (taskRows lines nT) nR) (lineAt lines 1) nR.toNat sched) := by
  obtain ⟨nT2, nR2, h02, h12, hdall, hedge, hcons, hz⟩ := buildModel_ok_inv hbm
  rw [h0] at h02
  injection h02 with e1
  subst e1
  rw [h1] at h12
  injection h12 with e2
  subst e2
  have hlenT : (pyRange nT).length = nT.toNat := by simp [pyRange]
  have hTpos : 0 < nT := by
    by_contra hc
    have : nT.toNat = 0 := by omega
    rw [hlenT, this] at hz
    exact hz rfl
  have hrowsLen : (taskRows lines nT).length = nT.toNat := by
    unfold taskRows bodyRows
    simp [pyRange]
  refine ⟨?_, ?_, ?_⟩
  · intro p
    constructor
    · intro hp
      obtain ⟨i, srow, s, hi, hs, hp1, hpy⟩ := buildEdgesAux_ok_src
        (pyRange nT).length (succsRows (taskRows lines nT) nR) 0 m.precEdges
        hedge p hp
      rw [Nat.zero_add] at hp1
      subst hp1
      exact ⟨srow, s, hi, hs, hpy⟩
    · rintro ⟨srow, s, hi, hs, hpy⟩
      have := buildEdgesAux_ok_mem (pyRange nT).length
        (succsRows (taskRows lines nT) nR) 0 m.precEdges hedge p.1 srow s p.2
        hi hs hpy
      simpa using this
  · rw [buildResCons_ok_length (lineAt lines 1)
      (demRows (taskRows lines nT) nR) (pyRange nR) m.resCons hcons]
    simp [pyRange]
  · intro sched hsat
    constructor
    · intro t srow s hrow hs
      obtain ⟨hs1, hs2⟩ := hsucc t srow s hrow hs
      have hcast : (nT.toNat : Int) = nT := by omega
      have hidx : pyIdx (pyRange nT).length (s - 1) = some (s.toNat - 1) := by
        rw [hlenT]
        exact pyIdx_oneBased nT.toNat s hs1 (by omega)
      have hmem := buildEdgesAux_ok_mem (pyRange nT).length
        (succsRows (taskRows lines nT) nR) 0 m.precEdges hedge t srow s
        (s.toNat - 1) hrow hs hidx
      rw [Nat.zero_add] at hmem
      have := hsat.1 (t, s.toNat - 1) hmem
      exact this
    · intro r hr τ
      have hrr : (pyRange nR)[r]? = some r := by
        simp [pyRange, List.getElem?_range hr]
      obtain ⟨es, cap, hes, hcap, hcs⟩ := buildResCons_ok_get (lineAt lines 1)
        (demRows (taskRows lines nT) nR) (pyRange nR) m.resCons hcons r r hrr
      have husage := hsat.2 (es.filter (fun p => decide (0 < p.2)), cap)
        (List.getElem?_mem hcs) τ
      have hlen : (demRows (taskRows lines nT) nR).length = m.durations.length := by
        rw [collectE_ok_length (fun row => exGet row 0) (taskRows lines nT)
          m.durations hdall]
        unfold demRows
        simp
      have hnn : ∀ (i : Nat) (drow : List Int),
          (demRows (taskRows lines nT) nR)[i]? = some drow →
          ∀ x ∈ drow, (0 : Int) ≤ x := by
        intro i drow hdrow x hx
        unfold demRows at hdrow
        rw [List.getElem?_map] at hdrow
        cases hrow2 : (taskRows lines nT)[i]? with
        | none => rw [hrow2] at hdrow; cases hdrow
        | some row =>
          rw [hrow2] at hdrow
          injection hdrow with h3
          subst h3
          exact hdems i row hrow2 x hx
      have hkey := usage_eq_specUsage m sched r
        (demRows (taskRows lines nT) nR) es τ hlen hes hnn
      rw [hkey] at husage
      have hcapval : ((lineAt lines 1)[r]?).getD 0 = cap := by
        rw [pyGet_ofNat] at hcap
        rw [hcap]
        rfl
      rw [hcapval]
      exact husage

/-- Witness for C3 on the valid instance `2 1 / 1 / 3 1 1 2 / 2 1 0`
(two tasks, durations 3 and 2, one resource of capacity 1, demands 1 and
1, task 1 precedes task 2). -/
theorem model_schedules_meet_spec_witness :
    (∀ p : Nat × Nat,
      p ∈ (CpoModelE.mk [3, 2] [(0, 1)] [([(0, 1), (1, 1)], 1)]).precEdges ↔
      ∃ (srow : List Int) (s : Int),
        (succsRows (taskRows [[2, 1], [1], [3, 1, 1, 2], [2, 1, 0]] 2) 1)[p.1]? =
            some srow ∧ s ∈ srow ∧
          pyIdx (pyRange 2).length (s - 1) = some p.2) ∧
    (CpoModelE.mk [3, 2] [(0, 1)] [([(0, 1), (1, 1)], 1)]).resCons.length =
      (1 : Int).toNat ∧
    (∀ sched : Nat → Int,
      Satisfies (CpoModelE.mk [3, 2] [(0, 1)] [([(0, 1), (1, 1)], 1)]) sched →
      SpecScheduleOk
        (CpoModelE.mk [3, 2] [(0, 1)] [([(0, 1), (1, 1)], 1)]).durations
        (demRows (taskRows [[2, 1], [1], [3, 1, 1, 2], [2, 1, 0]] 2) 1)
        (succsRows (taskRows [[2, 1], [1], [3, 1, 1, 2], [2, 1, 0]] 2) 1)
        (lineAt [[2, 1], [1], [3, 1, 1, 2], [2, 1, 0]] 1) (1 : Int).toNat
        sched) :=
  model_schedules_meet_spec [[2, 1], [1], [3, 1, 1, 2], [2, 1, 0]]
    (CpoModelE.mk [3, 2] [(0, 1)] [([(0, 1), (1, 1)], 1)]) 2 1 rfl rfl rfl
    (by
      intro t srow s hrow hs
      have hval : succsRows (taskRows [[2, 1], [1], [3, 1, 1, 2], [2, 1, 0]] 2) 1 =
          [[2], []] := rfl
      rw [hval] at hrow
      cases t with
      | zero =>
        simp only [List.getElem?_cons_zero, Option.some.injEq] at hrow
        subst hrow
        simp only [List.mem_singleton] at hs
        subst hs
        exact ⟨(by decide), (by decide)⟩
      | succ t1 =>
        cases t1 with
        | zero =>
          simp only [List.getElem?_cons_succ, List.getElem?_cons_zero,
            Option.some.injEq] at hrow
          subst hrow
          simp at hs
        | succ t2 => simp at hrow)
    (by
      intro t row hrow x hx
      have hval : taskRows [[2, 1], [1], [3, 1, 1, 2], [2, 1, 0]] 2 =
          [[3, 1, 1, 2], [2, 1, 0]] := rfl
      rw [hval] at hrow
      cases t with
      | zero =>
        simp only [List.getElem?_cons_zero, Option.some.injEq] at hrow
        subst hrow
        have hd : demRow [3, 1, 1, 2] 1 = [1] := rfl
        rw [hd] at hx
        simp only [List.mem_singleton] at hx
        subst hx
        decide
      | succ t1 =>
        cases t1 with
        | zero =>
          simp only [List.getElem?_cons_succ, List.getElem?_cons_zero,
            Option.some.injEq] at hrow
          subst hrow
          have hd : demRow [2, 1, 0] 1 = [1] := rfl
          rw [hd] at hx
          simp only [List.mem_singleton] at hx
          subst hx
          decide
        | succ t2 => simp at hrow)

end RCPSP
